import Mathlib

/-!
# quiC2 — formal model of the signaling and mailbox core

A shallow embedding of the quiC2 command-and-control repository
(`c2_dealer.py`, `c2_server.py`, `c2_client.py`, `server/server_comms.py`,
`client/cl_functions.py`, `tools/constants.py`,
`tools/shared_functionality.py`).

Conventions of the embedding:
* sqlite tables are lists of rows in rowid (= insertion) order; a `select`
  without `order by` yields rows in that order, and `delete ... where`
  removes the matching rows and always succeeds (deleting zero rows is not
  an error in sqlite).
* `stream_id` values are stored through `str(stream_id)` and compared
  against `str(stream_id)`; since `str` is injective on the integers this
  encoding is elided and keys are kept as `Nat`.  Where the *string* nature
  of a stored id is observable (`clean_stagnant` subscripts the value
  returned by `sel_all_alive`), the elision is accounted for explicitly,
  see `stagnantTestExpr`.
* timestamps (`time.time()`) are modelled as `Int`.
* Python exceptions are modelled with `Except PyErr`.
-/

/-- Python exceptions that the modelled code can raise. -/
inductive PyErr where
  | typeError
  | indexError
  | valueError
  | calledProcessError
  | notImplementedError
  | operationalError
  deriving DecidableEq, Repr

/-- Constant `DEFAULT_MAX_DATA = 1048576` from `tools/constants.py`. -/
def DEFAULT_MAX_DATA : Nat := 1048576

/-- Constant `MAX_VLIE_INT = 107374182000` from `tools/constants.py`. -/
def MAX_VLIE_INT : Nat := 107374182000

/-- Constant `DELIMITER = '***'` from `tools/constants.py`, as a character list. -/
def DELIMITER : List Char := ['*', '*', '*']

/-- Constant `MAX_BYTES = 1230` from `tools/constants.py`. -/
def MAX_BYTES : Nat := 1230

/-- Enumeration `Actions` from `tools/constants.py`. -/
inductive Actions where
  | CUSTOM
  | WHOAMI
  | HOSTNAME
  | PWD
  | LS
  | IPCONFIG
  | NOT_A_VALID_INTEGER
  | NO_RESPONSE_NEEDED
  | FILE_NOT_FOUND
  | CLIENT_HELLO
  | CLIENT_RESPONSE
  | CLIENT_FAIL
  | CLIENT_KILL
  | CLIENT_FILE_SEND
  | SERVER_SEES_HELLO
  | SERVER_SEES_RESPONSE
  | SERVER_FILE_SEND
  | SERVER_FILE_RECV
  deriving DecidableEq, Repr

/-- The `.value` attribute of each `Actions` member (`tools/constants.py`). -/
def Actions.value : Actions → Nat
  | .CUSTOM => 1153433
  | .WHOAMI => 2097152
  | .HOSTNAME => 2202009
  | .PWD => 2306867
  | .LS => 2411724
  | .IPCONFIG => 2516582
  | .NOT_A_VALID_INTEGER => 9437184
  | .NO_RESPONSE_NEEDED => 9542041
  | .FILE_NOT_FOUND => 9646899
  | .CLIENT_HELLO => 10485760
  | .CLIENT_RESPONSE => 10590617
  | .CLIENT_FAIL => 10695475
  | .CLIENT_KILL => 10800332
  | .CLIENT_FILE_SEND => 10905190
  | .SERVER_SEES_HELLO => 11534336
  | .SERVER_SEES_RESPONSE => 11639193
  | .SERVER_FILE_SEND => 11744051
  | .SERVER_FILE_RECV => 11848908

/-- The `.name` attribute of each `Actions` member. -/
def Actions.name : Actions → String
  | .CUSTOM => "CUSTOM"
  | .WHOAMI => "WHOAMI"
  | .HOSTNAME => "HOSTNAME"
  | .PWD => "PWD"
  | .LS => "LS"
  | .IPCONFIG => "IPCONFIG"
  | .NOT_A_VALID_INTEGER => "NOT_A_VALID_INTEGER"
  | .NO_RESPONSE_NEEDED => "NO_RESPONSE_NEEDED"
  | .FILE_NOT_FOUND => "FILE_NOT_FOUND"
  | .CLIENT_HELLO => "CLIENT_HELLO"
  | .CLIENT_RESPONSE => "CLIENT_RESPONSE"
  | .CLIENT_FAIL => "CLIENT_FAIL"
  | .CLIENT_KILL => "CLIENT_KILL"
  | .CLIENT_FILE_SEND => "CLIENT_FILE_SEND"
  | .SERVER_SEES_HELLO => "SERVER_SEES_HELLO"
  | .SERVER_SEES_RESPONSE => "SERVER_SEES_RESPONSE"
  | .SERVER_FILE_SEND => "SERVER_FILE_SEND"
  | .SERVER_FILE_RECV => "SERVER_FILE_RECV"

/-- Iteration order of `for item in Actions` (member declaration order). -/
def actionsOrder : List Actions :=
  [.CUSTOM, .WHOAMI, .HOSTNAME, .PWD, .LS, .IPCONFIG,
   .NOT_A_VALID_INTEGER, .NO_RESPONSE_NEEDED, .FILE_NOT_FOUND,
   .CLIENT_HELLO, .CLIENT_RESPONSE, .CLIENT_FAIL, .CLIENT_KILL,
   .CLIENT_FILE_SEND, .SERVER_SEES_HELLO, .SERVER_SEES_RESPONSE,
   .SERVER_FILE_SEND, .SERVER_FILE_RECV]

/-- Function `int_to_enum` from `tools/shared_functionality.py`: scan the members of
`Actions` in declaration order for one whose `.value` equals the input;
return `NOT_A_VALID_INTEGER` when no member matches. -/
def int_to_enum (input : Nat) : Actions :=
  match actionsOrder.find? (fun item => item.value == input) with
  | some item => item
  | none => Actions.NOT_A_VALID_INTEGER

/-- Lines 77-89 of `c2_server.py` `quic_event_received`: on a
`StreamDataReceived` event the server decodes `self._quic._remote_max_data`
with `int_to_enum`; if the result is `NOT_A_VALID_INTEGER` it resets
`_remote_max_data` to `DEFAULT_MAX_DATA`, sets `_local_max_data` to
`Actions.CLIENT_KILL.value` and returns.  The function below returns
`some (new_remote_max_data, new_local_max_data)` when that recovery branch
fires and `none` otherwise. -/
def serverRecovery (remote_max_data : Nat) : Option (Nat × Nat) :=
  if int_to_enum remote_max_data = Actions.NOT_A_VALID_INTEGER then
    some (DEFAULT_MAX_DATA, Actions.CLIENT_KILL.value)
  else
    none

/-! ## Database model of `QuiC2Database` (`c2_dealer.py`)

The four sqlite tables, each a list of rows in rowid order. -/

/-- The state of the sqlite database `c2_database.db`: the tables
`alive_clients(stream_id, time)`, `cmd_pool(stream_id, cmd)`,
`files_send(stream_id, filename)` and `files_recv(stream_id, filename)`.
Stored `str(stream_id)` keys are elided to `Nat` (see module docstring). -/
structure DB where
  alive : List (Nat × Int)
  cmd_pool : List (Nat × String)
  files_send : List (Nat × String)
  files_recv : List (Nat × String)
  deriving DecidableEq, Repr

/-- A database with all four tables empty. -/
def DB.empty : DB := ⟨[], [], [], []⟩

/-- Method `QuiC2Database.sel_all_alive`: `select * from alive_clients`, keeping
`row[0]` (the stream_id) of each row; returns `(list, error_flag)` where
the flag is only set on an `sqlite3.OperationalError` (a storage-level
failure, outside this model, hence `false`). -/
def sel_all_alive (db : DB) : List Nat × Bool :=
  (db.alive.map (fun row => row.1), false)

/-- Method `QuiC2Database.insert_new_stream_id`: fetch all alive clients; if any
of them equals the new `stream_id` (`stream_id == int(client)`), return
`False` without touching the table; otherwise insert
`(str(stream_id), time.time())` and return `True`. -/
def insert_new_stream_id (now : Int) (sid : Nat) (db : DB) : Bool × DB :=
  if (sel_all_alive db).1.any (fun client => client == sid) then
    (false, db)
  else
    (true, { db with alive := db.alive ++ [(sid, now)] })

/-- Method `QuiC2Database.insert_new_cmd`: `insert into cmd_pool(stream_id, cmd)`. -/
def insert_new_cmd (sid : Nat) (cmd : String) (db : DB) : DB :=
  { db with cmd_pool := db.cmd_pool ++ [(sid, cmd)] }

/-- Method `QuiC2Database.insert_new_file_send`:
`insert into files_send(stream_id, filename)`. -/
def insert_new_file_send (sid : Nat) (filename : String) (db : DB) : DB :=
  { db with files_send := db.files_send ++ [(sid, filename)] }

/-- Method `QuiC2Database.insert_new_file_recv`:
`insert into files_recv(stream_id, filename)`. -/
def insert_new_file_recv (sid : Nat) (filename : String) (db : DB) : DB :=
  { db with files_recv := db.files_recv ++ [(sid, filename)] }

/-- Method `QuiC2Database.sel_and_del_cmd`: select `cmd` of every `cmd_pool` row
whose `stream_id` matches (in rowid order), then delete every matching
row; returns `(commands, error_flag)` plus the updated database. -/
def sel_and_del_cmd (sid : Nat) (db : DB) : (List String × Bool) × DB :=
  (((db.cmd_pool.filter (fun row => row.1 == sid)).map (fun row => row.2), false),
   { db with cmd_pool := db.cmd_pool.filter (fun row => !(row.1 == sid)) })

/-- Method `QuiC2Database.sel_and_del_file_send`: select the matching `files_send`
rows, keep the filename of the FIRST one only (`break` after one row,
`''` when there is none), then run
`delete from files_send where stream_id = ...` — which removes EVERY row
of that stream_id, not merely the row that was returned. -/
def sel_and_del_file_send (sid : Nat) (db : DB) : (String × Bool) × DB :=
  let matching := db.files_send.filter (fun row => row.1 == sid)
  ((((matching.head?).map (fun row => row.2)).getD (""), false),
   { db with files_send := db.files_send.filter (fun row => !(row.1 == sid)) })

/-- Method `QuiC2Database.sel_and_del_file_recv`: same shape as
`sel_and_del_file_send` over the `files_recv` table. -/
def sel_and_del_file_recv (sid : Nat) (db : DB) : (String × Bool) × DB :=
  let matching := db.files_recv.filter (fun row => row.1 == sid)
  ((((matching.head?).map (fun row => row.2)).getD (""), false),
   { db with files_recv := db.files_recv.filter (fun row => !(row.1 == sid)) })

/-- Method `QuiC2Database.del_stream_id`:
`delete from alive_clients where stream_id = ...` then `return True`.
In sqlite a `delete` whose `where` clause matches no row still succeeds
(it deletes zero rows); `sqlite3.OperationalError` — the only path to
`return False` — signals a storage-level failure, not a missing row.
Hence the call returns `True` regardless of whether a row existed. -/
def del_stream_id (sid : Nat) (db : DB) : Bool × DB :=
  (true, { db with alive := db.alive.filter (fun row => !(row.1 == sid)) })

/-- The expression `time.time() - client[1]` in the loop body of
`QuiC2Database.clean_stagnant`.  `client` ranges over the list returned by
`sel_all_alive`, whose elements are the stored `str(stream_id)` strings
(`row[0]`), NOT `(stream_id, time)` rows.  So `client[1]` is the second
character of the decimal string when the id has at least two digits (and
then `float - str` raises `TypeError`), and raises `IndexError` for a
one-digit id.  Either way the expression raises. -/
def stagnantTestExpr (_now : Int) (sid : Nat) : Except PyErr Int :=
  if sid < 10 then .error .indexError else .error .typeError

/-- The leading decimal digit of a natural number: the integer value of
`str(sid)[0]`, used to model `client[0]` in `clean_stagnant` (that branch
is unreachable because `stagnantTestExpr` always raises first). -/
def leadDigit (n : Nat) : Nat :=
  if h : n < 10 then n else leadDigit (n / 10)
  termination_by n
  decreasing_by
    exact Nat.div_lt_self (Nat.lt_of_lt_of_le (by decide) (Nat.not_lt.mp h)) (by decide)

/-- Method `QuiC2Database.clean_stagnant`: fetch the alive clients; when there is
no error and the list is non-empty, loop over the clients testing
`(time.time() - client[1]) > 60`, collecting `client[0]` of the stale ones
into `removed` and deleting them, then return `(removed, True)`; otherwise
return `([], False)`.  The loop body's test raises (see
`stagnantTestExpr`), and an exception inside the `for` loop propagates out
of the call, modelled with `Except`. -/
def clean_stagnant (now : Int) (db : DB) : Except PyErr (List Nat × Bool × DB) :=
  let (clients, error) := sel_all_alive db
  if error = false ∧ clients ≠ [] then do
    let (removed, db') ← clients.foldlM (fun (acc : List Nat × DB) client => do
      let diff ← stagnantTestExpr now client
      if diff > 60 then
        let c0 := leadDigit client
        pure (acc.1 ++ [c0], (del_stream_id c0 acc.2).2)
      else
        pure acc) ([], db)
    pure (removed, true, db')
  else
    pure ([], false, db)

/-! ## Server handler (`respond_to_sdr` in `server/server_comms.py`) -/

/-- Function `respond_to_sdr` from `server/server_comms.py`: register the stream_id
(idempotently, via `insert_new_stream_id`), then dispatch on the received
`Actions` value.  On `CLIENT_HELLO`: take the queued commands; if that
read did not error and produced a non-empty list reply
`(SERVER_SEES_HELLO, cmds)`; else take the outbound file and, if no error
and the filename is truthy (non-empty), reply `(SERVER_FILE_SEND, [f])`;
else take the inbound-file request likewise for
`(SERVER_FILE_RECV, [f])`; else reply `(NO_RESPONSE_NEEDED, [])`.
`CLIENT_RESPONSE ↦ (SERVER_SEES_RESPONSE, [])`,
`FILE_NOT_FOUND ↦ (FILE_NOT_FOUND, [])`, anything else
`↦ (NOT_A_VALID_INTEGER, [])`. -/
def respond_to_sdr (now : Int) (db : DB) (sid : Nat) (value : Actions) :
    (Actions × List String) × DB :=
  let db0 := (insert_new_stream_id now sid db).2
  match value with
  | .CLIENT_HELLO =>
    let ((cmds, err1), db1) := sel_and_del_cmd sid db0
    if err1 = false ∧ cmds ≠ [] then ((.SERVER_SEES_HELLO, cmds), db1)
    else
      let ((file_send, err2), db2) := sel_and_del_file_send sid db1
      if err2 = false ∧ file_send ≠ "" then ((.SERVER_FILE_SEND, [file_send]), db2)
      else
        let ((file_recv, err3), db3) := sel_and_del_file_recv sid db2
        if err3 = false ∧ file_recv ≠ "" then ((.SERVER_FILE_RECV, [file_recv]), db3)
        else ((.NO_RESPONSE_NEEDED, []), db3)
  | .CLIENT_RESPONSE => ((.SERVER_SEES_RESPONSE, []), db0)
  | .FILE_NOT_FOUND => ((.FILE_NOT_FOUND, []), db0)
  | _ => ((.NOT_A_VALID_INTEGER, []), db0)

/-- The branch structure of the `CLIENT_HELLO` arm of `respond_to_sdr`
with the three mailbox reads (each a result together with its
`error_flag`) abstracted as inputs, so that the behaviour under storage
errors — which the concrete `DB` model cannot produce — can be stated. -/
def helloDispatch (cmds : List String × Bool) (file_send file_recv : String × Bool) :
    Actions × List String :=
  if cmds.2 = false ∧ cmds.1 ≠ [] then (.SERVER_SEES_HELLO, cmds.1)
  else if file_send.2 = false ∧ file_send.1 ≠ "" then (.SERVER_FILE_SEND, [file_send.1])
  else if file_recv.2 = false ∧ file_recv.1 ≠ "" then (.SERVER_FILE_RECV, [file_recv.1])
  else (.NO_RESPONSE_NEEDED, [])

/-! ## Client-side command execution (`client/cl_functions.py`) -/

/-- Outcomes of `platform.system()` distinguished by `stock_command`. -/
inductive OSKind where
  | Windows
  | Linux
  | Other
  deriving DecidableEq, Repr

/-- The observable outcome of `subprocess.run('powershell.exe ' + cmd,
check=True, capture_output=True, shell=True)`: the shell's exit status and
captured output streams.  The behaviour of the machine's shell is a
parameter of the model. -/
structure ShellResult where
  returncode : Int
  stdout : String
  stderr : String
  deriving DecidableEq, Repr

/-- Python `str(b)` for a bytes value `b` (used by `custom_command` on
`e.stderr`): the `b'...'` textual representation. -/
def pyStrBytes (s : String) : String :=
  "b" ++ String.singleton (Char.ofNat 39) ++ s ++ String.singleton (Char.ofNat 39)

/-- Python `str.lower()`: lower-case every character. -/
def pyLower (s : String) : String := String.mk (s.data.map Char.toLower)

/-- Function `stock_command` from `client/cl_functions.py`: lower-case the action's
name; translate `ipconfig` per OS (`ip a` on Linux, unchanged on Windows,
`NotImplementedError` elsewhere); run `powershell.exe <cmd>` with
`check=True` and return its stdout.  There is NO `try/except` around the
`subprocess.run` call: `check=True` raises `CalledProcessError` on a
nonzero exit status and that exception propagates to the caller. -/
def stock_command (sh : String → ShellResult) (os : OSKind) (input_cmd : Actions) :
    Except PyErr String := do
  let cmd := pyLower (Actions.name input_cmd)
  let cmd ←
    if cmd ∈ ["ipconfig"] then
      match os with
      | .Windows => pure cmd
      | .Linux => pure (if cmd = "ipconfig" then ("ip a") else cmd)
      | .Other => Except.error .notImplementedError
    else
      pure cmd
  let r := sh ("powershell.exe " ++ cmd)
  if r.returncode ≠ 0 then
    Except.error .calledProcessError
  else
    pure r.stdout

/-- Function `custom_command` from `client/cl_functions.py`: run `powershell.exe <cmd>`
with `check=True` inside a `try`; on success return the process's stdout,
and on `CalledProcessError` return `str(e.stderr).encode()` — the failure
text becomes the returned payload instead of propagating. -/
def custom_command (sh : String → ShellResult) (cmd : String) :
    Except PyErr String :=
  let r := sh ("powershell.exe " ++ cmd)
  if r.returncode ≠ 0 then
    Except.ok (pyStrBytes r.stderr)
  else
    Except.ok r.stdout

/-- A shell on which every command fails: exit status 1 (for instance a
host where `powershell.exe` is not on the path, so the shell reports
"command not found" and exits nonzero). -/
def shFail : String → ShellResult :=
  fun _ => ⟨1, "", "powershell.exe: command not found"⟩

/-! ## Transfer codec: chunking and reassembly -/

/-- Chunking loop of `c2_client.py` `quic_event_received`, lines 142-149:
starting from index `i = 0`, repeatedly send `response[i:i+MAX_BYTES]`,
advance `i` by `MAX_BYTES`, and stop once `i > len(response)`
(a do-while loop).  Returns the chunks in emission order. -/
def sendChunks (response : List Nat) (i : Nat) : List (List Nat) :=
  ((response.drop i).take MAX_BYTES) ::
    (if i + MAX_BYTES > response.length then []
     else sendChunks response (i + MAX_BYTES))
  termination_by response.length - i
  decreasing_by
    rename_i h
    have hM : 0 < MAX_BYTES := by decide
    omega

/-- Receiver side of a transfer (`c2_server.py` `quic_event_received`,
lines 93-97): each arriving chunk is appended (`open('temp', 'ab')`) to
what has been written so far, in arrival order. -/
def reassemble (chunks : List (List Nat)) : List Nat :=
  chunks.foldl (fun acc c => acc ++ c) []

/-! ## Delimiter codec (`c2_client.py` lines 88-91, `c2_server.py` lines 167-176) -/

/-- Characters removed by Python's `str.strip()` with no argument
(ASCII whitespace; the further Unicode whitespace Python also strips does
not occur in this development). -/
def pyIsSpace (c : Char) : Bool :=
  c == ' ' || c == '\t' || c == '\n' || c == '\x0d' || c == '\x0b' || c == '\x0c'

/-- Python `str.strip()`: drop leading and trailing whitespace. -/
def pyStrip (s : List Char) : List Char :=
  ((s.dropWhile pyIsSpace).reverse.dropWhile pyIsSpace).reverse

/-- Python `str.split(sep)` for a non-empty separator `sep`: scan left to
right; each occurrence of `sep` ends the current fragment (adjacent
occurrences produce empty fragments, and so does a trailing occurrence). -/
def pySplit (sep : List Char) (s : List Char) : List (List Char) :=
  match s with
  | [] => [[]]
  | c :: cs =>
    if h : sep.isPrefixOf (c :: cs) ∧ sep ≠ [] then
      [] :: pySplit sep ((c :: cs).drop sep.length)
    else
      match pySplit sep cs with
      | [] => [[c]]
      | t :: ts => (c :: t) :: ts
  termination_by s.length
  decreasing_by
    · have hsep : 0 < sep.length := List.length_pos.mpr h.2
      simp only [List.length_drop, List.length_cons]
      omega
    · simp only [List.length_cons]
      omega

/-- Joining text items with `DELIMITER` between consecutive items — the
operation named by the specification ("delimiter-joining"); Python's
`DELIMITER.join(items)`.  (The server itself sends `cmd + DELIMITER` per
item, which over a coalesced packet equals this join with one extra
trailing delimiter.) -/
def joinD : List (List Char) → List Char
  | [] => []
  | [x] => x
  | x :: y :: rest => x ++ DELIMITER ++ joinD (y :: rest)

/-- Receive-side parsing from `c2_client.py` `quic_event_received`,
lines 88-91: `event.data.decode('utf-8').strip().split(DELIMITER)`, then
`[x.strip() for x in sd_list if x]` — split the stripped payload on the
delimiter, keep only the non-empty fragments, and strip each. -/
def recvParse (s : List Char) : List (List Char) :=
  ((pySplit DELIMITER (pyStrip s)).filter (fun x => !x.isEmpty)).map pyStrip

/-! ## Helper definitions used by the theorems -/

/-- Commands currently queued for a given stream_id, in rowid order (the
list `sel_and_del_cmd` would return). -/
def cmdsFor (sid : Nat) (db : DB) : List String :=
  (db.cmd_pool.filter (fun row => row.1 == sid)).map (fun row => row.2)

/-- Enqueue a sequence of commands for one client, oldest first, through
repeated calls of `insert_new_cmd`. -/
def enqueueCmds (sid : Nat) (cmds : List String) (db : DB) : DB :=
  cmds.foldl (fun d c => insert_new_cmd sid c d) db

/-! ## Helper lemmas -/

/-- Unfolding `enqueueCmds`: each insert appends one `(sid, cmd)` row to
`cmd_pool` and leaves the other three tables alone. -/
lemma enqueueCmds_tables (sid : Nat) (cmds : List String) (db : DB) :
    (enqueueCmds sid cmds db).cmd_pool = db.cmd_pool ++ cmds.map (fun c => (sid, c)) ∧
    (enqueueCmds sid cmds db).alive = db.alive ∧
    (enqueueCmds sid cmds db).files_send = db.files_send ∧
    (enqueueCmds sid cmds db).files_recv = db.files_recv := by
  induction cmds generalizing db with
  | nil => simp [enqueueCmds]
  | cons c cs ih =>
    have h := ih (insert_new_cmd sid c db)
    simp only [enqueueCmds] at h ⊢
    rw [List.foldl_cons]
    refine ⟨?_, ?_, ?_, ?_⟩
    · rw [h.1]; simp [insert_new_cmd]
    · rw [h.2.1, insert_new_cmd]
    · rw [h.2.2.1, insert_new_cmd]
    · rw [h.2.2.2, insert_new_cmd]

/-- Rows freshly enqueued for `sid` all survive the key filter and project
back to the commands. -/
lemma filter_map_key (sid : Nat) (cmds : List String) :
    ((cmds.map (fun c => (sid, c))).filter (fun row => row.1 == sid)).map
      (fun row => row.2) = cmds := by
  induction cmds with
  | nil => rfl
  | cons c cs ih => simp [ih]

/-- Selecting rows of a key after deleting that key's rows yields nothing. -/
lemma filter_key_deleted (sid : Nat) (l : List (Nat × String)) :
    (l.filter (fun row => !(row.1 == sid))).filter (fun row => row.1 == sid) = [] := by
  induction l with
  | nil => rfl
  | cons r rs ih =>
    by_cases h1 : r.1 = sid
    · simp [List.filter_cons, h1, ih]
    · simp [List.filter_cons, h1, ih]

/-- Deleting the rows of one key leaves any other key's rows untouched. -/
lemma filter_after_delete (sid sid' : Nat) (h : sid' ≠ sid) (l : List (Nat × String)) :
    (l.filter (fun row => !(row.1 == sid))).filter (fun row => row.1 == sid')
      = l.filter (fun row => row.1 == sid') := by
  induction l with
  | nil => rfl
  | cons r rs ih =>
    by_cases h1 : r.1 = sid
    · have h2 : ¬ (r.1 = sid') := fun hc => h (by rw [← hc, h1])
      simp [List.filter_cons, h1, h2, h, Ne.symm h, ih]
    · by_cases h2 : r.1 = sid'
      · simp [List.filter_cons, h1, h2, h, Ne.symm h, ih]
      · simp [List.filter_cons, h1, h2, h, Ne.symm h, ih]

/-! ## Claim theorems -/

/-- C10: `int_to_enum` maps the integer 9437184 — itself the defined
enumeration value of the sentinel `NOT_A_VALID_INTEGER` — to the same
sentinel it returns for every unmapped integer, so decoding cannot
distinguish a deliberately sent sentinel code from a desynchronized
signal field; the server's undecodable-signal recovery (reset the field
to `DEFAULT_MAX_DATA`, send `CLIENT_KILL`) fires on 9437184 exactly as on
any out-of-range integer. -/
theorem quic2_c10_sentinel_indistinguishable :
    int_to_enum 9437184 = Actions.NOT_A_VALID_INTEGER ∧
    Actions.value Actions.NOT_A_VALID_INTEGER = 9437184 ∧
    (∀ n : Nat, n ∉ actionsOrder.map Actions.value →
      int_to_enum n = Actions.NOT_A_VALID_INTEGER) ∧
    serverRecovery 9437184 = some (DEFAULT_MAX_DATA, Actions.value Actions.CLIENT_KILL) ∧
    (∀ n : Nat, n ∉ actionsOrder.map Actions.value →
      serverRecovery n = some (DEFAULT_MAX_DATA, Actions.value Actions.CLIENT_KILL)) := by
  have h3 : ∀ n : Nat, n ∉ actionsOrder.map Actions.value →
      int_to_enum n = Actions.NOT_A_VALID_INTEGER := by
    intro n hn
    unfold int_to_enum
    cases hfind : actionsOrder.find? (fun item => item.value == n) with
    | none => rfl
    | some item =>
      exfalso
      apply hn
      have hmem := List.mem_of_find?_eq_some hfind
      have hp := List.find?_some hfind
      have hv : item.value = n := by simpa using hp
      exact hv ▸ List.mem_map_of_mem Actions.value hmem
  exact ⟨by decide, by decide, h3, by decide,
    fun n hn => by simp [serverRecovery, h3 n hn]⟩

/-- Witness for C10 at the unmapped integer 42. -/
theorem quic2_c10_witness :
    (42 ∉ actionsOrder.map Actions.value) ∧
    serverRecovery 42 = some (DEFAULT_MAX_DATA, Actions.value Actions.CLIENT_KILL) :=
  ⟨by decide, quic2_c10_sentinel_indistinguishable.2.2.2.2 42 (by decide)⟩

/-- C7: `insert_new_stream_id` is idempotent — on a registry not yet
containing `sid`, the first call inserts `(sid, now)` at the end and
returns `true`; a second call (at any later time `now2`) returns `false`
and leaves the registry exactly as it was, so its size is unchanged and
the stored timestamp is not refreshed. -/
theorem quic2_c7_register_idempotent (now now2 : Int) (sid : Nat) (db : DB)
    (h : sid ∉ db.alive.map (fun row => row.1)) :
    insert_new_stream_id now sid db
      = (true, { db with alive := db.alive ++ [(sid, now)] }) ∧
    insert_new_stream_id now2 sid { db with alive := db.alive ++ [(sid, now)] }
      = (false, { db with alive := db.alive ++ [(sid, now)] }) := by
  constructor
  · have hc : (db.alive.map (fun row => row.1)).any (fun client => client == sid) = false := by
      rw [List.any_eq_false]
      intro x hx
      simp only [beq_iff_eq]
      intro hxe
      exact h (hxe ▸ hx)
    simp [insert_new_stream_id, sel_all_alive, hc]
  · have hc : ((db.alive ++ [(sid, now)]).map (fun row => row.1)).any
        (fun client => client == sid) = true := by
      simp
    simp [insert_new_stream_id, sel_all_alive, hc]

/-- Witness for C7: register stream_id 5 into the empty registry. -/
theorem quic2_c7_witness :
    (5 ∉ DB.empty.alive.map (fun row => row.1)) ∧
    insert_new_stream_id 1 5 DB.empty
      = (true, { DB.empty with alive := DB.empty.alive ++ [(5, 1)] }) :=
  ⟨by decide, (quic2_c7_register_idempotent 1 2 5 DB.empty (by decide)).1⟩

/-- C8 (refuting the claim): `del_stream_id` returns `True` on every call,
because sqlite's `delete` succeeds even when the `where` clause matches no
row; in particular deleting stream_id 42 from the empty registry returns
`true` although no row existed and none was removed. -/
theorem quic2_c8_remove_always_true :
    (∀ sid db, (del_stream_id sid db).1 = true) ∧
    del_stream_id 42 DB.empty = (true, DB.empty) :=
  ⟨fun _ _ => rfl, by decide⟩

/-- C1 (refuting the claim): with two outbound files "f1", "f2" queued for
client 1, one `sel_and_del_file_send` call returns "f1" but deletes BOTH
rows, so the immediate second call returns the empty filename (i.e. none)
instead of "f2"; symmetrically for `sel_and_del_file_recv`. -/
theorem quic2_c1_take_file_deletes_all_rows :
    (sel_and_del_file_send 1
        (insert_new_file_send 1 "f2" (insert_new_file_send 1 "f1" DB.empty))).1
      = ("f1", false) ∧
    ((sel_and_del_file_send 1
        (insert_new_file_send 1 "f2" (insert_new_file_send 1 "f1" DB.empty))).2).files_send
      = [] ∧
    (sel_and_del_file_send 1 ((sel_and_del_file_send 1
        (insert_new_file_send 1 "f2" (insert_new_file_send 1 "f1" DB.empty))).2)).1
      = ("", false) ∧
    (sel_and_del_file_recv 1
        (insert_new_file_recv 1 "g2" (insert_new_file_recv 1 "g1" DB.empty))).1
      = ("g1", false) ∧
    (sel_and_del_file_recv 1 ((sel_and_del_file_recv 1
        (insert_new_file_recv 1 "g2" (insert_new_file_recv 1 "g1" DB.empty))).2)).1
      = ("", false) := by
  refine ⟨?_, ?_, ?_, ?_, ?_⟩ <;> decide

/-- C6: `sel_and_del_cmd` returns every command queued for `sid` — the
previously queued ones followed by the freshly enqueued ones, in exact
enqueue order — and deletes them in the same operation, so an immediate
second call returns the empty list; rows of any other stream_id are
unaffected. -/
theorem quic2_c6_take_commands_in_order (db : DB) (sid sid' : Nat) (cmds : List String)
    (h : sid' ≠ sid) :
    (sel_and_del_cmd sid (enqueueCmds sid cmds db)).1 = (cmdsFor sid db ++ cmds, false) ∧
    (sel_and_del_cmd sid ((sel_and_del_cmd sid (enqueueCmds sid cmds db)).2)).1
      = ([], false) ∧
    cmdsFor sid' ((sel_and_del_cmd sid (enqueueCmds sid cmds db)).2)
      = cmdsFor sid' (enqueueCmds sid cmds db) := by
  have hpool := (enqueueCmds_tables sid cmds db).1
  refine ⟨?_, ?_, ?_⟩
  · simp [sel_and_del_cmd, cmdsFor, hpool, List.filter_append, filter_map_key]
  · simp [sel_and_del_cmd, filter_key_deleted]
  · simp [sel_and_del_cmd, cmdsFor, filter_after_delete sid sid' h]

/-- Witness for C6: enqueue "a" then "b" for client 1 of an empty store. -/
theorem quic2_c6_witness :
    ((2 : Nat) ≠ 1) ∧
    (sel_and_del_cmd 1 (enqueueCmds 1 ["a", "b"] DB.empty)).1
      = (cmdsFor 1 DB.empty ++ ["a", "b"], false) :=
  ⟨by decide, (quic2_c6_take_commands_in_order DB.empty 1 2 ["a", "b"] (by decide)).1⟩

/-- C3 (refuting the claim for `stock_command`): on a host whose shell
exits nonzero (`shFail`, e.g. `powershell.exe` missing), `stock_command`
raises `CalledProcessError` out of the call — `subprocess.run(...,
check=True)` has no surrounding `try` there — while `custom_command`
catches the failure and returns the error text as its payload for every
shell and every command. -/
theorem quic2_c3_stock_command_propagates_failure :
    stock_command shFail OSKind.Linux Actions.WHOAMI = .error .calledProcessError ∧
    stock_command shFail OSKind.Windows Actions.IPCONFIG = .error .calledProcessError ∧
    (∀ sh cmd, ∃ output, custom_command sh cmd = .ok output) ∧
    custom_command shFail ("whoami") = .ok (pyStrBytes ("powershell.exe: command not found")) := by
  refine ⟨rfl, rfl, ?_, rfl⟩
  intro sh cmd
  by_cases h : (sh ("powershell.exe " ++ cmd)).returncode ≠ 0
  · refine ⟨pyStrBytes (sh ("powershell.exe " ++ cmd)).stderr, ?_⟩
    simp only [custom_command]
    rw [if_pos h]
  · refine ⟨(sh ("powershell.exe " ++ cmd)).stdout, ?_⟩
    simp only [custom_command]
    rw [if_neg h]

/-- C2 (refuting the claim): `clean_stagnant` raises on any non-empty
registry — `sel_all_alive` returns only the stream_id strings, so
`client[1]` in the loop body is a character of the id (TypeError when
subtracted from `time.time()`) or out of range (IndexError for a
one-digit id); here with a record 100 seconds old, which the claim says
would be evicted and returned. -/
theorem quic2_c2_clean_stagnant_raises :
    clean_stagnant 200 { DB.empty with alive := [(42, 100)] } = .error .typeError ∧
    clean_stagnant 200 { DB.empty with alive := [(7, 100)] } = .error .indexError := by
  constructor <;> rfl

/-- Reassembly is concatenation of the chunks in order. -/
lemma foldl_append_eq_join (l : List (List Nat)) :
    ∀ acc : List Nat, l.foldl (fun a c => a ++ c) acc = acc ++ l.flatten := by
  induction l with
  | nil => intro acc; simp
  | cons c cs ih => intro acc; simp [List.foldl_cons, ih, List.append_assoc]

/-- Joining the chunks emitted from index `i` restores the payload's
suffix from `i`. -/
lemma sendChunks_join (response : List Nat) (i : Nat) :
    (sendChunks response i).flatten = response.drop i := by
  rw [sendChunks]
  by_cases h : i + MAX_BYTES > response.length
  · rw [if_pos h]
    simp only [List.flatten_cons, List.flatten_nil, List.append_nil]
    apply List.take_of_length_le
    simp only [List.length_drop]
    omega
  · rw [if_neg h]
    simp only [List.flatten_cons]
    rw [sendChunks_join response (i + MAX_BYTES)]
    have hd : response.drop (i + MAX_BYTES) = (response.drop i).drop MAX_BYTES := by
      rw [List.drop_drop, Nat.add_comm]
    rw [hd, List.take_append_drop]
  termination_by response.length - i
  decreasing_by
    have hM : 0 < MAX_BYTES := by decide
    omega

/-- Every emitted chunk fits the per-packet budget. -/
lemma sendChunks_le (response : List Nat) (i : Nat) :
    ∀ c ∈ sendChunks response i, c.length ≤ MAX_BYTES := by
  intro c hc
  rw [sendChunks] at hc
  rcases List.mem_cons.mp hc with rfl | hc
  · exact List.length_take_le _ _
  · by_cases h : i + MAX_BYTES > response.length
    · rw [if_pos h] at hc
      simp at hc
    · rw [if_neg h] at hc
      exact sendChunks_le response (i + MAX_BYTES) c hc
  termination_by response.length - i
  decreasing_by
    have hM : 0 < MAX_BYTES := by decide
    omega

/-- C5: the sender's chunk loop emits chunks of length at most
`MAX_BYTES` that cover the payload in order, and the receiver's append-in
arrival-order reassembly restores the payload byte for byte — in
particular for a payload of `5 * MAX_BYTES + 37` bytes. -/
theorem quic2_c5_chunk_reassemble :
    (∀ payload : List Nat,
      (∀ c ∈ sendChunks payload 0, c.length ≤ MAX_BYTES) ∧
      reassemble (sendChunks payload 0) = payload) ∧
    reassemble (sendChunks (List.replicate (5 * MAX_BYTES + 37) 0) 0)
      = List.replicate (5 * MAX_BYTES + 37) 0 := by
  have hgen : ∀ payload : List Nat,
      (∀ c ∈ sendChunks payload 0, c.length ≤ MAX_BYTES) ∧
      reassemble (sendChunks payload 0) = payload := by
    intro payload
    refine ⟨sendChunks_le payload 0, ?_⟩
    rw [reassemble, foldl_append_eq_join, sendChunks_join]
    simp
  exact ⟨hgen, (hgen _).2⟩

/-- Registration never touches the three mailbox tables. -/
lemma insert_new_stream_id_other_tables (now : Int) (sid : Nat) (db : DB) :
    ((insert_new_stream_id now sid db).2).cmd_pool = db.cmd_pool ∧
    ((insert_new_stream_id now sid db).2).files_send = db.files_send ∧
    ((insert_new_stream_id now sid db).2).files_recv = db.files_recv := by
  unfold insert_new_stream_id
  split <;> simp

/-- C4: on `CLIENT_HELLO` the server registers the client via
`insert_new_stream_id` (the registry part of the final state is exactly
the registered one), then answers according to the fixed priority chain
over the three mailbox reads — queued commands, then one outbound file,
then one inbound-file request — as captured by `helloDispatch` applied to
the reads of the incoming store; and whenever every source is empty or
its read reported an error, the dispatch is `(NO_RESPONSE_NEEDED, [])`. -/
theorem quic2_c4_hello_priority (now : Int) (db : DB) (sid : Nat) :
    ((respond_to_sdr now db sid Actions.CLIENT_HELLO).2).alive
        = ((insert_new_stream_id now sid db).2).alive ∧
    (respond_to_sdr now db sid Actions.CLIENT_HELLO).1
        = helloDispatch (sel_and_del_cmd sid db).1
            (sel_and_del_file_send sid db).1 (sel_and_del_file_recv sid db).1 ∧
    (∀ (cmds : List String) (e1 : Bool) (fs : String) (e2 : Bool) (fr : String) (e3 : Bool),
      (e1 = true ∨ cmds = []) → (e2 = true ∨ fs = "") → (e3 = true ∨ fr = "") →
      helloDispatch (cmds, e1) (fs, e2) (fr, e3) = (Actions.NO_RESPONSE_NEEDED, [])) := by
  have hind := insert_new_stream_id_other_tables now sid db
  refine ⟨?_, ?_, ?_⟩
  · simp only [respond_to_sdr, sel_and_del_cmd, sel_and_del_file_send, sel_and_del_file_recv]
    split_ifs <;> simp
  · simp only [respond_to_sdr, sel_and_del_cmd, sel_and_del_file_send, sel_and_del_file_recv,
      helloDispatch, hind.1, hind.2.1, hind.2.2]
    split_ifs <;> rfl
  · intro cmds e1 fs e2 fr e3 h1 h2 h3
    have h1n : ¬(e1 = false ∧ cmds ≠ []) := by
      rcases h1 with h | h <;> simp [h]
    have h2n : ¬(e2 = false ∧ fs ≠ "") := by
      rcases h2 with h | h <;> simp [h]
    have h3n : ¬(e3 = false ∧ fr ≠ "") := by
      rcases h3 with h | h <;> simp [h]
    simp only [helloDispatch]
    rw [if_neg h1n, if_neg h2n, if_neg h3n]

/-- Witness for C4: empty command list, errored outbound-file read, empty
inbound filename give `NO_RESPONSE_NEEDED`. -/
theorem quic2_c4_witness :
    helloDispatch ([], false) ("", true) ("", false) = (Actions.NO_RESPONSE_NEEDED, []) :=
  (quic2_c4_hello_priority 0 DB.empty 1).2.2 [] false ("") true ("") false
    (Or.inr rfl) (Or.inl rfl) (Or.inr rfl)

/-- Unfolding `pySplit` at the empty string. -/
lemma pySplit_nil (sep : List Char) : pySplit sep [] = [[]] := by
  rw [pySplit]

/-- Unfolding `pySplit` when the separator matches at the head. -/
lemma pySplit_cons_pos (sep : List Char) (c : Char) (cs : List Char)
    (h : sep.isPrefixOf (c :: cs) ∧ sep ≠ []) :
    pySplit sep (c :: cs) = [] :: pySplit sep ((c :: cs).drop sep.length) := by
  rw [pySplit]
  rw [dif_pos h]

/-- Unfolding `pySplit` when the separator does not match at the head. -/
lemma pySplit_cons_neg (sep : List Char) (c : Char) (cs : List Char)
    (h : ¬(sep.isPrefixOf (c :: cs) ∧ sep ≠ [])) :
    pySplit sep (c :: cs)
      = match pySplit sep cs with
        | [] => [[c]]
        | t :: ts => (c :: t) :: ts := by
  rw [pySplit]
  rw [dif_neg h]

/-- Splitting always yields at least one fragment. -/
lemma pySplit_ne_nil (sep s : List Char) : pySplit sep s ≠ [] := by
  cases s with
  | nil => rw [pySplit_nil]; simp
  | cons c cs =>
    by_cases h : sep.isPrefixOf (c :: cs) ∧ sep ≠ []
    · rw [pySplit_cons_pos _ _ _ h]; simp
    · rw [pySplit_cons_neg _ _ _ h]
      cases pySplit sep cs <;> simp

/-- Prepending delimiter-free text extends the first fragment. -/
lemma pySplit_append_left (x y : List Char) (hx : '*' ∉ x) :
    pySplit DELIMITER (x ++ y)
      = (x ++ (pySplit DELIMITER y).headI) :: (pySplit DELIMITER y).tail := by
  induction x with
  | nil =>
    simp only [List.nil_append]
    cases hq : pySplit DELIMITER y with
    | nil => exact absurd hq (pySplit_ne_nil _ _)
    | cons t ts => simp [hq]
  | cons c x' ih =>
    have hc : c ≠ '*' := fun hcc => hx (by rw [← hcc]; exact List.mem_cons_self _ _)
    have hx' : '*' ∉ x' := fun hm => hx (List.mem_cons_of_mem _ hm)
    have hnp : ¬(DELIMITER.isPrefixOf (c :: (x' ++ y)) ∧ DELIMITER ≠ []) := by
      intro hcontra
      have hpre := hcontra.1
      simp [DELIMITER, List.isPrefixOf] at hpre
      exact hc hpre.1.symm
    rw [List.cons_append, pySplit_cons_neg _ _ _ hnp, ih hx']
    simp

/-- Splitting at a leading delimiter emits an empty fragment. -/
lemma pySplit_delim_prepend (y : List Char) :
    pySplit DELIMITER (DELIMITER ++ y) = [] :: pySplit DELIMITER y := by
  have h : DELIMITER.isPrefixOf (DELIMITER ++ y) ∧ DELIMITER ≠ [] := by
    constructor
    · rw [ List.isPrefixOf_iff_prefix]
      exact List.prefix_append _ _
    · simp [DELIMITER]
  show pySplit DELIMITER ('*' :: ('*' :: ('*' :: y))) = [] :: pySplit DELIMITER y
  rw [pySplit_cons_pos DELIMITER '*' ('*' :: ('*' :: y)) h]
  rfl

/-- Splitting the delimiter-join of delimiter-free items recovers the
items (one empty fragment for the empty join). -/
lemma pySplit_joinD : ∀ items : List (List Char), (∀ x ∈ items, '*' ∉ x) →
    pySplit DELIMITER (joinD items) = if items = [] then [[]] else items := by
  intro items
  induction items with
  | nil =>
    intro _
    simp [joinD, pySplit_nil]
  | cons x rest ih =>
    intro h
    have hx : '*' ∉ x := h x (List.mem_cons_self _ _)
    cases rest with
    | nil =>
      have hsp := pySplit_append_left x [] hx
      rw [List.append_nil] at hsp
      simp only [joinD]
      rw [hsp, pySplit_nil]
      simp
    | cons y rest' =>
      have hrest : ∀ z ∈ y :: rest', '*' ∉ z := fun z hz => h z (List.mem_cons_of_mem _ hz)
      simp only [joinD]
      rw [List.append_assoc, pySplit_append_left x _ hx, pySplit_delim_prepend, ih hrest]
      simp

/-- A list whose head satisfies no `p` loses nothing to `dropWhile`. -/
lemma dropWhile_eq_self_of_head (p : Char → Bool) (s : List Char)
    (h : ∀ c, s.head? = some c → p c = false) : s.dropWhile p = s := by
  cases s with
  | nil => rfl
  | cons a t => simp [List.dropWhile_cons, h a rfl]

/-- Strings with non-whitespace ends are unchanged by `pyStrip`. -/
lemma pyStrip_eq_self (s : List Char)
    (h1 : ∀ c, s.head? = some c → pyIsSpace c = false)
    (h2 : ∀ c, s.getLast? = some c → pyIsSpace c = false) : pyStrip s = s := by
  unfold pyStrip
  rw [dropWhile_eq_self_of_head _ _ h1]
  rw [dropWhile_eq_self_of_head _ _ (fun c hc => h2 c (by rwa [List.head?_reverse] at hc))]
  exact List.reverse_reverse s

/-- Head of a non-empty list through `head?` and `headI` agree. -/
lemma head?_eq_headI (l : List Char) (h : l ≠ []) : l.head? = some l.headI := by
  cases l with
  | nil => exact absurd rfl h
  | cons a t => rfl

/-- Mapping a function that fixes every member fixes the list. -/
lemma map_eq_self_of (f : List Char → List Char) (l : List (List Char))
    (h : ∀ x ∈ l, f x = x) : l.map f = l := by
  induction l with
  | nil => rfl
  | cons a t ih =>
    simp [h a (List.mem_cons_self _ _), ih (fun x hx => h x (List.mem_cons_of_mem _ hx))]

/-- Appending one empty item to a non-empty join appends one trailing
delimiter. -/
lemma joinD_append_nil_item (x : List Char) (rest : List (List Char)) :
    joinD ((x :: rest) ++ [[]]) = joinD (x :: rest) ++ DELIMITER := by
  induction rest generalizing x with
  | nil => simp [joinD]
  | cons y rest' ih =>
    have ih' := ih y
    simp only [List.cons_append] at ih' ⊢
    simp only [joinD]
    rw [ih']
    simp [List.append_assoc]

/-- A non-empty join starts with its first item. -/
lemma joinD_cons_eq_append (x : List Char) (rest : List (List Char)) :
    ∃ z, joinD (x :: rest) = x ++ z := by
  cases rest with
  | nil => exact ⟨[], by simp [joinD]⟩
  | cons y r => exact ⟨DELIMITER ++ joinD (y :: r), by simp [joinD, List.append_assoc]⟩

/-- A join ends with its last item. -/
lemma joinD_eq_append_last : ∀ (rest : List (List Char)) (x : List Char),
    ∃ z, joinD (rest ++ [x]) = z ++ x := by
  intro rest
  induction rest with
  | nil => exact fun x => ⟨[], by simp [joinD]⟩
  | cons y ys ih =>
    intro x
    cases ys with
    | nil => exact ⟨y ++ DELIMITER, by simp [joinD, List.append_assoc]⟩
    | cons y2 ys2 =>
      obtain ⟨z, hz⟩ := ih x
      refine ⟨y ++ DELIMITER ++ z, ?_⟩
      have hgoal : joinD ((y :: y2 :: ys2) ++ [x])
          = y ++ DELIMITER ++ joinD ((y2 :: ys2) ++ [x]) := rfl
      rw [hgoal, hz]
      simp [List.append_assoc]

/-- C9 counterexample: the single-item sequence whose item is the
non-empty text " " (one space) is not recovered — stripping the joined
payload erases it, so the receive side yields the empty sequence. -/
theorem quic2_c9_counterexample : recvParse (joinD [[' ']]) ≠ [[' ']] := by
  have h1 : joinD [[' ']] = [' '] := rfl
  have h2 : pyStrip [' '] = [] := rfl
  have h3 : pySplit DELIMITER [] = [[]] := pySplit_nil _
  simp [recvParse, h1, h2, h3]

/-- C9 amended: for items that are non-empty, contain no delimiter
character and carry no leading or trailing whitespace, the receive-side
split on the delimiter followed by discarding empty fragments (and
stripping each fragment) recovers the original items exactly, with or
without an extra trailing delimiter simulating coalesced messages. -/
theorem quic2_c9_amended_roundtrip (items : List (List Char)) (trailing : Bool)
    (h : ∀ x ∈ items, x ≠ [] ∧ '*' ∉ x ∧
      pyIsSpace x.headI = false ∧ pyIsSpace x.reverse.headI = false) :
    recvParse (joinD items ++ (if trailing then DELIMITER else [])) = items := by
  cases items with
  | nil =>
    cases trailing
    · show recvParse (joinD [] ++ []) = []
      have h0 : joinD ([] : List (List Char)) ++ [] = [] := rfl
      rw [h0]
      have hstrip : pyStrip [] = [] := rfl
      simp [recvParse, hstrip, pySplit_nil]
    · show recvParse (joinD [] ++ DELIMITER) = []
      have h0 : joinD ([] : List (List Char)) ++ DELIMITER = DELIMITER := rfl
      rw [h0]
      have hstrip : pyStrip DELIMITER = DELIMITER := rfl
      have hsp : pySplit DELIMITER DELIMITER = [[], []] := by
        have hd := pySplit_delim_prepend []
        rw [List.append_nil] at hd
        rw [hd, pySplit_nil]
      simp [recvParse, hstrip, hsp]
  | cons x rest =>
    obtain ⟨hxne, hxstar, hxhead, hxlast⟩ := h x (List.mem_cons_self _ _)
    have hhead : ∀ c,
        (joinD (x :: rest) ++ (if trailing then DELIMITER else [])).head? = some c →
        pyIsSpace c = false := by
      intro c hc
      obtain ⟨z, hz⟩ := joinD_cons_eq_append x rest
      rw [hz, List.append_assoc, List.head?_append_of_ne_nil _ hxne,
        head?_eq_headI x hxne] at hc
      injection hc with hc2
      rw [← hc2]
      exact hxhead
    have hlast : ∀ c,
        (joinD (x :: rest) ++ (if trailing then DELIMITER else [])).getLast? = some c →
        pyIsSpace c = false := by
      intro c hc
      cases trailing with
      | true =>
        rw [if_pos rfl, List.getLast?_append_of_ne_nil _ (by simp [DELIMITER])] at hc
        have : DELIMITER.getLast? = some '*' := rfl
        rw [this] at hc
        injection hc with hc2
        rw [← hc2]
        rfl
      | false =>
        rw [if_neg (by simp), List.append_nil] at hc
        have hne : x :: rest ≠ [] := by simp
        have hdecomp := List.dropLast_append_getLast hne
        obtain ⟨hyne, _, _, hylast⟩ :=
          h ((x :: rest).getLast hne) (List.getLast_mem hne)
        obtain ⟨z, hz⟩ := joinD_eq_append_last (x :: rest).dropLast ((x :: rest).getLast hne)
        rw [hdecomp] at hz
        rw [hz, List.getLast?_append_of_ne_nil _ hyne, ← List.head?_reverse,
          head?_eq_headI _ (by simp [hyne])] at hc
        injection hc with hc2
        rw [← hc2]
        exact hylast
    have hstrip := pyStrip_eq_self _ hhead hlast
    have hstar : ∀ z ∈ x :: rest, '*' ∉ z := fun z hz => (h z hz).2.1
    have hsplit : pySplit DELIMITER (joinD (x :: rest) ++ (if trailing then DELIMITER else []))
        = (x :: rest) ++ (if trailing then [[]] else []) := by
      cases trailing with
      | true =>
        rw [if_pos rfl, if_pos rfl, ← joinD_append_nil_item x rest]
        rw [pySplit_joinD ((x :: rest) ++ [[]])]
        · simp
        · intro z hz
          rcases List.mem_append.mp hz with hz1 | hz1
          · exact hstar z hz1
          · have : z = [] := by simpa using hz1
            simp [this]
      | false =>
        rw [if_neg (by simp), if_neg (by simp), List.append_nil]
        rw [pySplit_joinD (x :: rest) hstar]
        simp
    unfold recvParse
    rw [hstrip, hsplit, List.filter_append]
    have hf1 : (x :: rest).filter (fun t => !t.isEmpty) = x :: rest := by
      rw [List.filter_eq_self]
      intro a ha
      simp [List.isEmpty_iff, (h a ha).1]
    have hf2 : ((if trailing then [[]] else []) : List (List Char)).filter
        (fun t => !t.isEmpty) = [] := by
      cases trailing <;> rfl
    rw [hf1, hf2, List.append_nil]
    apply map_eq_self_of
    intro z hz
    obtain ⟨hzne, _, hzhead, hzlast⟩ := h z hz
    apply pyStrip_eq_self
    · intro c hc
      rw [head?_eq_headI z hzne] at hc
      injection hc with hc2
      rw [← hc2]
      exact hzhead
    · intro c hc
      rw [← List.head?_reverse, head?_eq_headI _ (by simp [hzne])] at hc
      injection hc with hc2
      rw [← hc2]
      exact hzlast

/-- Witness for C9 at the items "a", "b", "c" with a trailing delimiter. -/
theorem quic2_c9_witness :
    (∀ x ∈ [['a'], ['b'], ['c']], x ≠ [] ∧ '*' ∉ x ∧
      pyIsSpace x.headI = false ∧ pyIsSpace x.reverse.headI = false) ∧
    recvParse (joinD [['a'], ['b'], ['c']] ++ DELIMITER) = [['a'], ['b'], ['c']] :=
  ⟨by decide, quic2_c9_amended_roundtrip [['a'], ['b'], ['c']] true (by decide)⟩

/-- Witness for C5: the single chunk of the one-byte payload `[7]` is a
member of the emitted chunk list and fits the budget. -/
theorem quic2_c5_witness :
    ([7] ∈ sendChunks [7] 0) ∧ List.length [7] ≤ MAX_BYTES := by
  have hmem : [7] ∈ sendChunks [7] 0 := by
    rw [sendChunks]
    rw [if_pos (by norm_num [MAX_BYTES])]
    decide
  exact ⟨hmem, (quic2_c5_chunk_reassemble.1 [7]).1 [7] hmem⟩
